import Mathlib


/-!
Verification development for the EC2 instance control plane
(`app.py` + `controller.py`).

Shallow embedding conventions:
* Python strings are embedded as `List Char` (abbreviated `Str`); dicts as
  insertion-ordered association lists (`List (Str × _)`), matching Python
  dict semantics (update-in-place keeps position, fresh keys append,
  deletion removes the key).
* The cloud provider, SSH channel and wall clock are inputs: a `World`
  record of response functions, and explicit `nowH`/`nowM`/timestamp
  parameters.  The provider is queried several times during one operation;
  modelling it as a function of the instance id states the standard
  stability assumption that its report does not change mid-operation.
* Every provider / SSH interaction and every status / url store is recorded
  in a ghost `trace : List Ev`, so that claims about "no state-change call
  is issued" and about the order of updates are statements about the trace.
* The operations log and flash messages are write-only presentation text
  (never read back by the control logic) and are not part of the state.
* AWS credentials and SSH configuration are assumed present in the
  environment (otherwise `EC2Manager.__init__` raises before any logic
  runs); the embedding models the configured deployment.
* Exceptions are modelled by `Option` results (a raised exception at a
  point where the source has mutated state is modelled by branching, so the
  partial mutations are kept).
-/


/-- Python strings, embedded as character lists. -/
abbrev Str := List Char

/-- Status literal `running` (also the EC2 state name). -/
def sRunning : Str := "running".toList

/-- Status literal `stopped` (also the EC2 state name). -/
def sStopped : Str := "stopped".toList

/-- Status literal `starting`. -/
def sStarting : Str := "starting".toList

/-- Status literal `error`. -/
def sError : Str := "error".toList

/-- Status literal `created`. -/
def sCreated : Str := "created".toList

/-- Status literal `setup`. -/
def sSetup : Str := "setup".toList

/-- Url scheme part of the derived endpoint (`controller.py:63`). -/
def urlScheme : Str := "http://".toList

/-- Fixed application port part of the derived endpoint (`controller.py:63`). -/
def urlPort : Str := ":1100".toList

/-- `f"http:\x7b\x7dip\x7b\x7d:1100"` — endpoint derivation convention. -/
def urlOf (ip : Str) : Str := urlScheme ++ ip ++ urlPort

/-- The two kinds of recurring trigger jobs (`app.py:286`-`287`). -/
inductive JobKind
  | startK
  | stopK
deriving DecidableEq, Repr

/-- The text used in a job id for each kind. -/
def kindStr : JobKind → Str
  | .startK => "start".toList
  | .stopK => "stop".toList

/-- One APScheduler job, as created by `add_daily_schedule`:
`id = f"start_..."` or `f"stop_..."` carrying the instance id and a
timestamp string. -/
structure Job where
  kind : JobKind
  inst : Str
  stamp : Str
deriving DecidableEq, Repr

/-- The job id string `f"start_\x7binstance_id\x7d_\x7bint(time.time())\x7d"`
(`app.py:286`-`287`). -/
def jobId (j : Job) : Str := kindStr j.kind ++ '_' :: j.inst ++ '_' :: j.stamp

/-- The pattern `f"start_\x7binstance_id\x7d_"` used in the prefix test at
`app.py:262` and `app.py:342`. -/
def jobPat (k : JobKind) (iid : Str) : Str := kindStr k ++ '_' :: iid ++ ['_']

/-- `str.startswith`, on embedded strings. -/
def hasPref : Str → Str → Bool
  | [], _ => true
  | _ :: _, [] => false
  | p :: ps, c :: cs => p == c && hasPref ps cs

/-- The removal condition of `app.py:262` / `app.py:342`:
`job.id.startswith(f"start_..._") or job.id.startswith(f"stop_..._")`. -/
def jobMatches (iid : Str) (j : Job) : Bool :=
  hasPref (jobPat .startK iid) (jobId j) || hasPref (jobPat .stopK iid) (jobId j)

/-- A schedule record: the dict
`\x7b"start": ..., "end": ..., "duration": ...\x7d` of `app.py:253`. -/
structure ScheduleRec where
  start : Str
  endT : Str
  duration : Nat
deriving DecidableEq, Repr

/-- An instance record: the dict stored in `instances` (`app.py:370`-`375`),
with the optional denormalized `schedule` entry (`app.py:313`). -/
structure InstanceRec where
  id : Str
  displayName : Str
  status : Str
  url : Option Str
  schedule : Option ScheduleRec
deriving DecidableEq, Repr

/-- Ghost trace events: provider / SSH interactions and local stores. -/
inductive Ev
  | describeC (iid : Str)
  | runInstancesC
  | startInstancesC (iid : Str)
  | stopInstancesC (iid : Str)
  | waitRunningC (iid : Str)
  | waitStoppedC (iid : Str)
  | sshSetupC (iid : Str)
  | sshLaunchC (iid : Str)
  | statusEv (iid : Str) (s : Str)
  | urlEv (iid : Str) (u : Option Str)
deriving DecidableEq, Repr

/-- The module-level mutable state of `app.py`: `instances`, `schedules`,
the scheduler's job set, `active_tasks`, plus the ghost event trace. -/
structure St where
  instances : List (Str × InstanceRec)
  schedules : List (Str × ScheduleRec)
  jobs : List Job
  activeTasks : List (Str × Str)
  trace : List Ev
deriving DecidableEq, Repr

/-- The empty initial state (`app.py:21`-`26`). -/
def St.empty : St := ⟨[], [], [], [], []⟩

/-- Append a ghost event. -/
def St.addEv (st : St) (e : Ev) : St := { st with trace := st.trace ++ [e] }

/-- Point update of one instance record (no-op when the key is absent;
call sites guard membership exactly where the source does). -/
def modifyInst (st : St) (iid : Str) (f : InstanceRec → InstanceRec) : St :=
  { st with instances := st.instances.map fun p => if p.1 = iid then (p.1, f p.2) else p }

/-- `instances[iid]["status"] = s`, with its ghost event. -/
def St.setStatus (st : St) (iid : Str) (s : Str) : St :=
  (modifyInst st iid fun r => { r with status := s }).addEv (.statusEv iid s)

/-- `instances[iid]["url"] = u`, with its ghost event. -/
def St.setUrl (st : St) (iid : Str) (u : Option Str) : St :=
  (modifyInst st iid fun r => { r with url := u }).addEv (.urlEv iid u)

/-- Dict lookup (`k in d` / `d.get(k)` / `d[k]`). -/
def lookupA : List (Str × α) → Str → Option α
  | [], _ => none
  | p :: rest, k => if p.1 = k then some p.2 else lookupA rest k

/-- Dict update-or-insert: update in place if the key exists, else append. -/
def updA (l : List (Str × α)) (k : Str) (v : α) : List (Str × α) :=
  l.map fun p => if p.1 = k then (k, v) else p

/-- `d[k] = v` on a Python dict. -/
def upsertA (l : List (Str × α)) (k : Str) (v : α) : List (Str × α) :=
  if (lookupA l k).isSome then updA l k v else l ++ [(k, v)]

/-- What the compute provider reports for one instance:
`State.Name` and the optional `PublicIpAddress`. -/
structure ProviderView where
  state : Str
  publicIp : Option Str
deriving DecidableEq, Repr

/-- The external world: provider and SSH responses.  `describe = none`
models a raised `ClientError`; the `...Ok` fields tell whether the
corresponding request + wait / command sequence succeeds without raising. -/
structure World where
  describe : Str → Option ProviderView
  startOk : Str → Bool
  stopOk : Str → Bool
  launchOk : Str → Bool
  setupOk : Str → Bool
  createRes : Option (Str × Option Str)

/-- The relevant fields of an `EC2Manager` after `__init__`
(`controller.py:36`, `60`-`63`). -/
structure Manager where
  instanceId : Str
  publicIp : Option Str
  instanceUrl : Option Str
deriving DecidableEq, Repr

/-- Result dict of `EC2Manager.start` / `stop` / `launch`; only the
`success` flag is consulted by callers. -/
structure OpRes where
  success : Bool
deriving DecidableEq, Repr

/-- `EC2Manager.start` with `wait_for_completion=True`
(`controller.py:231`-`294`): describe, short-circuit when already
`running`, otherwise `start_instances` + waiter (failures anywhere are
caught and reported as `success: False`). -/
def managerStart (w : World) (m : Manager) (st : St) : OpRes × St :=
  let st := st.addEv (.describeC m.instanceId)
  match w.describe m.instanceId with
  | none => (⟨false⟩, st)
  | some v =>
    if v.state = sRunning then (⟨true⟩, st)
    else
      let st := st.addEv (.startInstancesC m.instanceId)
      let st := st.addEv (.waitRunningC m.instanceId)
      (⟨w.startOk m.instanceId⟩, st)

/-- `EC2Manager.stop` with `wait_for_completion=True`
(`controller.py:169`-`229`): describe, short-circuit when already
`stopped`, otherwise `stop_instances` + waiter. -/
def managerStop (w : World) (m : Manager) (st : St) : OpRes × St :=
  let st := st.addEv (.describeC m.instanceId)
  match w.describe m.instanceId with
  | none => (⟨false⟩, st)
  | some v =>
    if v.state = sStopped then (⟨true⟩, st)
    else
      let st := st.addEv (.stopInstancesC m.instanceId)
      let st := st.addEv (.waitStoppedC m.instanceId)
      (⟨w.stopOk m.instanceId⟩, st)

/-- `EC2Manager.launch` (`controller.py:140`-`167`): `_execute_commands`
describes the instance and runs the launch command sequence over SSH. -/
def managerLaunch (w : World) (m : Manager) (st : St) : OpRes × St :=
  let st := st.addEv (.describeC m.instanceId)
  let st := st.addEv (.sshLaunchC m.instanceId)
  (⟨w.launchOk m.instanceId⟩, st)

/-- `EC2Manager.setup` (`controller.py:105`-`138`). -/
def managerSetup (w : World) (m : Manager) (st : St) : OpRes × St :=
  let st := st.addEv (.describeC m.instanceId)
  let st := st.addEv (.sshSetupC m.instanceId)
  (⟨w.setupOk m.instanceId⟩, st)

/-- Python `int()` restricted to decimal digit strings: the accumulator
fold; any non-digit raises (`none`). -/
def decAcc : Str → Option Nat → Option Nat
  | [], acc => acc
  | c :: cs, acc =>
    decAcc cs (acc.bind fun n => if c.isDigit then some (n * 10 + (c.toNat - 48)) else none)

/-- Python `int(s)` on the pieces of a time string (empty string raises). -/
def toDec (s : Str) : Option Nat :=
  if s = [] then none else decAcc s (some 0)

/-- Python `s.split(':')`. -/
def splitColon : Str → List Str
  | [] => [[]]
  | c :: cs =>
    let r := splitColon cs
    if c = ':' then [] :: r
    else
      match r with
      | [] => [[c]]
      | h :: t => (c :: h) :: t

/-- `start_hour, start_minute = map(int, start_time.split(':'))`
(`app.py:234`); raises (`none`) unless the string splits into exactly two
decimal pieces. -/
def parseHM (s : Str) : Option (Nat × Nat) :=
  match splitColon s with
  | [a, b] =>
    match toDec a, toDec b with
    | some h, some m => some (h, m)
    | _, _ => none
  | _ => none

/-- End-of-window arithmetic of `add_daily_schedule` (`app.py:237`-`246`):
hour/minute split of the duration, single minute-overflow carry, hour
wrap modulo 24. -/
def computeEnd (startHour startMinute durationMinutes : Nat) : Nat × Nat :=
  let endHour := startHour + durationMinutes / 60
  let endMinute := startMinute + durationMinutes % 60
  let p := if endMinute ≥ 60 then (endHour + 1, endMinute - 60) else (endHour, endMinute)
  (p.1 % 24, p.2)

/-- `f"\x7b...:02d\x7d"` for the two-digit fields (arguments are < 100). -/
def fmt2 (n : Nat) : Str := [Nat.digitChar (n / 10), Nat.digitChar (n % 10)]

/-- `f"\x7bend_hour:02d\x7d:\x7bend_minute:02d\x7d"` (`app.py:249`). -/
def fmtHM (h m : Nat) : Str := fmt2 h ++ ':' :: fmt2 m

/-- `run_immediately` test of `app.py:272`: the process clock is within
the five-minute window just after the schedule's start time. -/
def runImmediately (nowH nowM sh sm : Nat) : Bool :=
  nowH == sh && Nat.ble sm nowM && Nat.blt nowM (sm + 5)

/-- `scheduled_start_instance` (`app.py:85`-`178`).  Bails when the id is
untracked; builds an `EC2Manager` (whose `__init__` describes the
instance); re-describes; if already `running` only synchronizes status and
url; otherwise `manager.start()`, status `starting`, status `running`,
`manager.launch()`, then url from `manager.instance_url` or a fresh
describe.  Every raised provider error is caught and sets status
`error`. -/
def scheduledStartInstance (w : World) (iid : Str) (st0 : St) : St :=
  if (lookupA st0.instances iid).isNone then st0
  else
    let st := st0.addEv (.describeC iid)
    match w.describe iid with
    | none => st.setStatus iid sError
    | some vInit =>
      let m : Manager := ⟨iid, vInit.publicIp, vInit.publicIp.map urlOf⟩
      let st := st.addEv (.describeC iid)
      match w.describe iid with
      | none => st.setStatus iid sError
      | some v =>
        if v.state = sRunning then
          let st := st.setStatus iid sRunning
          match v.publicIp with
          | some ip => st.setUrl iid (some (urlOf ip))
          | none => st
        else
          let r := managerStart w m st
          let st := r.2
          if r.1.success = false then st.setStatus iid sError
          else
            let st := st.setStatus iid sStarting
            let st := st.setStatus iid sRunning
            let st := (managerLaunch w m st).2
            match m.instanceUrl with
            | some u => st.setUrl iid (some u)
            | none =>
              let st := st.addEv (.describeC iid)
              match w.describe iid with
              | none => st
              | some v2 =>
                match v2.publicIp with
                | some ip => st.setUrl iid (some (urlOf ip))
                | none => st

/-- `scheduled_stop_instance` (`app.py:180`-`225`).  Builds the manager,
describes; when not already `stopped` calls `manager.stop()` (result
unchecked) and records status `stopped` / url `None`; when already
`stopped` records the same synchronization without any stop call.  The
status stores raise `KeyError` for an untracked id, caught by the
handlers, hence the membership branches. -/
def scheduledStopInstance (w : World) (iid : Str) (st0 : St) : St :=
  let st := st0.addEv (.describeC iid)
  match w.describe iid with
  | none =>
    if (lookupA st.instances iid).isSome then st.setStatus iid sError else st
  | some vInit =>
    let m : Manager := ⟨iid, vInit.publicIp, vInit.publicIp.map urlOf⟩
    let st := st.addEv (.describeC iid)
    match w.describe iid with
    | none =>
      if (lookupA st.instances iid).isSome then st.setStatus iid sError else st
    | some v =>
      if v.state ≠ sStopped then
        let st := (managerStop w m st).2
        if (lookupA st.instances iid).isSome then
          (st.setStatus iid sStopped).setUrl iid none
        else st
      else
        if (lookupA st.instances iid).isSome then
          (st.setStatus iid sStopped).setUrl iid none
        else st

/-- `add_daily_schedule` (`app.py:227`-`334`): parse the start time
(raising on malformed input, modelled by `none`), compute the end time,
update-or-insert the schedules entry, remove every job whose id matches
either prefix, install the fresh start/stop pair, mirror the schedule into
the instance record, and when within the immediate-run window invoke
`scheduled_start_instance` directly.  The two job ids take separate
`int(time.time())` stamps. -/
def addDailySchedule (w : World) (nowH nowM : Nat) (stamp1 stamp2 : Str)
    (iid : Str) (startTime : Str) (durationMinutes : Nat) (saveConfig : Bool)
    (st0 : St) : Option St :=
  match parseHM startTime with
  | none => none
  | some hm =>
    let e := computeEnd hm.1 hm.2 durationMinutes
    let endTime := fmtHM e.1 e.2
    let sched : ScheduleRec := ⟨startTime, endTime, durationMinutes⟩
    let st := { st0 with schedules := upsertA st0.schedules iid sched }
    let st := { st with jobs := st.jobs.filter fun j => !(jobMatches iid j) }
    let runNow := runImmediately nowH nowM hm.1 hm.2
    let st := { st with jobs := st.jobs ++ [⟨.startK, iid, stamp1⟩, ⟨.stopK, iid, stamp2⟩] }
    let st :=
      if (lookupA st.instances iid).isSome then
        modifyInst st iid fun r => { r with schedule := some sched }
      else st
    let _ := saveConfig
    let st := if runNow then scheduledStartInstance w iid st else st
    some st

/-- `remove_schedule` (`app.py:336`-`356`): drop every job whose id matches
either prefix, delete the schedules entry if present, delete the
denormalized `schedule` field if present. -/
def removeSchedule (iid : Str) (st0 : St) : St :=
  let st := { st0 with jobs := st0.jobs.filter fun j => !(jobMatches iid j) }
  let st := { st with schedules := st.schedules.filter fun p => !(p.1 == iid) }
  modifyInst st iid fun r => { r with schedule := none }

/-- `remove_instance` (`app.py:744`-`761`): for a tracked id, first
`remove_schedule`, then delete the registry entry. -/
def removeInstance (iid : Str) (st : St) : St :=
  if (lookupA st.instances iid).isSome then
    let st := removeSchedule iid st
    { st with instances := st.instances.filter fun p => !(p.1 == iid) }
  else st

/-- The four asynchronous operations dispatched through `background_task`
(`app.py:358`-`457`). -/
inductive Op
  | createOp (displayName : Str)
  | startOp (iid : Str)
  | stopOp (iid : Str)
  | renameOp (iid : Str) (name : Str)

/-- The `instance_id` argument the `except` handler of `background_task`
consults (`None` for `create`). -/
def opIid : Op → Option Str
  | .createOp _ => none
  | .startOp iid => some iid
  | .stopOp iid => some iid
  | .renameOp iid _ => some iid

/-- The `try` body of `background_task` (`app.py:361`-`444`).  Returns the
state reached and whether an exception escaped to the handler.
* `create`: `run_instances` via the launch template, register the record
  with status `created`, `setup()` (status `setup`), `launch()` (status
  `running`), url from the manager — the SSH results are not checked.
* `start`: manager `__init__` describes (raising for a bad id); reading
  `display_name` raises `KeyError` for an untracked id; `manager.start()`;
  status `starting` unconditionally; on success `launch()`, status
  `running`, then a locally-guarded describe to refresh the url.
* `stop`: `manager.stop()` (result ignored), status `stopped`, url `None`.
* `update_display_name`: guarded local rename. -/
def bgBody (w : World) (op : Op) (st0 : St) : St × Bool :=
  match op with
  | .createOp dn =>
    match w.createRes with
    | none => (st0.addEv .runInstancesC, true)
    | some ni =>
      let newId := ni.1
      let ip := ni.2
      let st := st0.addEv .runInstancesC
      let st := st.addEv (.describeC newId)
      let name := if dn = [] then "Instance ".toList ++ newId.take 8 else dn
      let st := { st with instances := upsertA st.instances newId ⟨newId, name, sCreated, none, none⟩ }
      let m : Manager := ⟨newId, ip, ip.map urlOf⟩
      let st := (managerSetup w m st).2
      let st := st.setStatus newId sSetup
      let st := (managerLaunch w m st).2
      let st := st.setStatus newId sRunning
      (st.setUrl newId (ip.map urlOf), false)
  | .startOp iid =>
    let st := st0.addEv (.describeC iid)
    match w.describe iid with
    | none => (st, true)
    | some vInit =>
      let m : Manager := ⟨iid, vInit.publicIp, vInit.publicIp.map urlOf⟩
      if (lookupA st.instances iid).isNone then (st, true)
      else
        let r := managerStart w m st
        let st := r.2
        let st := st.setStatus iid sStarting
        if r.1.success then
          let st := (managerLaunch w m st).2
          let st := st.setStatus iid sRunning
          let st := st.addEv (.describeC iid)
          match w.describe iid with
          | none => (st, false)
          | some v =>
            match v.publicIp with
            | some ip => (st.setUrl iid (some (urlOf ip)), false)
            | none => (st, false)
        else (st, false)
  | .stopOp iid =>
    let st := st0.addEv (.describeC iid)
    match w.describe iid with
    | none => (st, true)
    | some vInit =>
      let m : Manager := ⟨iid, vInit.publicIp, vInit.publicIp.map urlOf⟩
      if (lookupA st.instances iid).isNone then (st, true)
      else
        let st := (managerStop w m st).2
        let st := st.setStatus iid sStopped
        (st.setUrl iid none, false)
  | .renameOp iid name =>
    if (lookupA st0.instances iid).isSome && !(name == []) then
      (modifyInst st0 iid fun r => { r with displayName := name }, false)
    else (st0, false)

/-- `background_task` (`app.py:358`-`457`): run the body, on an escaped
exception set status `error` when the id is tracked, and in the `finally`
block delete the task's `active_tasks` entry unconditionally. -/
def backgroundTask (w : World) (taskId : Str) (op : Op) (st : St) : St :=
  let br := bgBody w op st
  let st2 :=
    if br.2 then
      match opIid op with
      | some iid =>
        if (lookupA br.1.instances iid).isSome then br.1.setStatus iid sError else br.1
      | none => br.1
    else br.1
  { st2 with activeTasks := st2.activeTasks.filter fun p => !(p.1 == taskId) }

/-- The structured document written by `save_configuration`
(`app.py:38`-`51`); the JSON layer round-trips these field types (strings,
integers, null, nested objects) exactly, so the snapshot is modelled by
the value itself. -/
structure Snapshot where
  instances : List (Str × InstanceRec)
  schedules : List (Str × ScheduleRec)
deriving DecidableEq, Repr

/-- `save_configuration` (`app.py:38`-`51`): whole-state snapshot. -/
def saveConfiguration (st : St) : Snapshot := ⟨st.instances, st.schedules⟩

/-- The restore loop of `load_configuration` (`app.py:72`-`80`): for each
schedule whose instance exists, re-install it via `add_daily_schedule`
(`save_config=False`); a raised error aborts the rest of the loop (caught
by the surrounding handler) but keeps the maps already assigned. -/
def restoreLoop (w : World) (nowH nowM : Nat) (stamp1 stamp2 : Str) :
    List (Str × ScheduleRec) → St → St
  | [], st => st
  | e :: rest, st =>
    if (lookupA st.instances e.1).isSome then
      match addDailySchedule w nowH nowM stamp1 stamp2 e.1 e.2.start e.2.duration false st with
      | some st' => restoreLoop w nowH nowM stamp1 stamp2 rest st'
      | none => st
    else restoreLoop w nowH nowM stamp1 stamp2 rest st

/-- `load_configuration` (`app.py:53`-`83`) in a fresh process: assign the
snapshot's maps into the empty state, then run the restore loop over the
schedule entries. -/
def loadConfiguration (w : World) (nowH nowM : Nat) (stamp1 stamp2 : Str)
    (snap : Snapshot) : St :=
  let st : St := { St.empty with instances := snap.instances, schedules := snap.schedules }
  restoreLoop w nowH nowM stamp1 stamp2 snap.schedules st

/-- A world in which the provider rejects every request; used to
instantiate theorems whose conclusion does not depend on the provider. -/
def wNull : World :=
  ⟨fun _ => none, fun _ => false, fun _ => false, fun _ => false, fun _ => false, none⟩

/-- Demo instance id for witnesses. -/
def iidDemo : Str := "i-0abc123".toList

/-- Demo timestamp string for witnesses. -/
def tsDemo : Str := "1700000000".toList

/-- Demo start time `23:30` for witnesses. -/
def t2330 : Str := "23:30".toList

/-- The literal instance id `a`: its start/stop job-id patterns are
`start_a_` / `stop_a_`. -/
def idA : Str := "a".toList

/-- A job belonging to a different instance whose id (`a_b`) extends `a`
with an underscore, so its job id `start_a_b_5` begins with `start_a_`. -/
def jobAB : Job := ⟨.startK, "a_b".toList, "5".toList⟩

/-- Predicate on trace events: a `start_instances` request. -/
def isStartCall : Ev → Bool
  | .startInstancesC _ => true
  | _ => false

/-- Predicate on trace events: a `stop_instances` request. -/
def isStopCall : Ev → Bool
  | .stopInstancesC _ => true
  | _ => false

/-- Demo public address for witnesses. -/
def ipDemo : Str := "3.4.5.6".toList

/-- A world whose provider reports the demo instance as `running` with the
demo address. -/
def wRun : World :=
  ⟨fun s => if s = iidDemo then some ⟨sRunning, some ipDemo⟩ else none,
    fun _ => true, fun _ => true, fun _ => true, fun _ => true, none⟩

/-- A state tracking the demo instance with status `stopped`. -/
def stDemo : St :=
  { St.empty with instances := [(iidDemo, ⟨iidDemo, iidDemo, sStopped, none, none⟩)] }

/-- A world whose provider reports the demo instance as `stopped`. -/
def wStop : World :=
  ⟨fun s => if s = iidDemo then some ⟨sStopped, none⟩ else none,
    fun _ => true, fun _ => true, fun _ => true, fun _ => true, none⟩

/-- A state tracking the demo instance with status `running` and a url. -/
def stDemoR : St :=
  { St.empty with instances :=
      [(iidDemo, ⟨iidDemo, iidDemo, sRunning, some (urlOf ipDemo), none⟩)] }

/-- The status/url-update ordering asserted by the spec for `start`
(spec-side definition, from the claim's words): the start request is
issued, then status becomes `starting` before the bounded wait, status
becomes `running` only after the wait, and only then is the application
launched. -/
def c9SpecOrder (iid : Str) (tr : List Ev) : Bool :=
  match tr.findIdx? (fun e => e == Ev.startInstancesC iid),
      tr.findIdx? (fun e => e == Ev.statusEv iid sStarting),
      tr.findIdx? (fun e => e == Ev.waitRunningC iid),
      tr.findIdx? (fun e => e == Ev.statusEv iid sRunning),
      tr.findIdx? (fun e => e == Ev.sshLaunchC iid) with
  | some i0, some i1, some i2, some i3, some i4 =>
    Nat.blt i0 i1 && Nat.blt i1 i2 && Nat.blt i2 i3 && Nat.blt i3 i4
  | _, _, _, _, _ => false

/-- A world whose provider reports the demo instance `stopped` but with a
public address, and in which start/wait and SSH all succeed. -/
def wBoot : World :=
  ⟨fun s => if s = iidDemo then some ⟨sStopped, some ipDemo⟩ else none,
    fun _ => true, fun _ => true, fun _ => true, fun _ => true, none⟩

/-- The two registry cells of one instance that lifecycle operations write:
(status, url). -/
inductive Wr
  | wStatus (s : Str)
  | wUrl (u : Option Str)
deriving DecidableEq, Repr

/-- Apply one write to the (status, url) pair. -/
def applyWr (p : Str × Option Str) (x : Wr) : Str × Option Str :=
  match x with
  | .wStatus s => (s, p.2)
  | .wUrl u => (p.1, u)

/-- Run a sequence of writes. -/
def runWr (p : Str × Option Str) (l : List Wr) : Str × Option Str := l.foldl applyWr p

/-- The registry writes of a successful `background_task` start
(`app.py:396`-`413`): status `starting`, status `running`, then the url. -/
def startWrites (u : Str) : List Wr :=
  [.wStatus sStarting, .wStatus sRunning, .wUrl (some (urlOf u))]

/-- The registry writes of a `background_task` stop (`app.py:429`-`431`):
status `stopped`, then url `None`. -/
def stopWrites : List Wr := [.wStatus sStopped, .wUrl none]

/-- `Ilv xs ys zs`: `zs` is an interleaving of `xs` and `ys` — the order
in which two concurrent threads' writes can reach the shared registry. -/
inductive Ilv : List Wr → List Wr → List Wr → Prop
  | nil : Ilv [] [] []
  | left {x : Wr} {xs ys zs : List Wr} : Ilv xs ys zs → Ilv (x :: xs) ys (x :: zs)
  | right {y : Wr} {xs ys zs : List Wr} : Ilv xs ys zs → Ilv xs (y :: ys) (y :: zs)

/-- Project the ghost trace onto the registry writes for one instance. -/
def writesOf (iid : Str) (tr : List Ev) : List Wr :=
  tr.filterMap fun e =>
    match e with
    | .statusEv i s => if i == iid then some (.wStatus s) else none
    | .urlEv i u => if i == iid then some (.wUrl u) else none
    | _ => none

/-- Internal consistency of one schedules entry as produced by this
system's own operations: the start time parses, the stored end time equals
the recomputed one, the restore clock is outside the five-minute
immediate-run window, and the denormalized copy on the instance record
(when the instance exists) agrees with the entry. -/
def entryOK (ins : List (Str × InstanceRec)) (nowH nowM : Nat)
    (q : Str × ScheduleRec) : Bool :=
  match parseHM q.2.start with
  | some hm =>
    (q.2.endT ==
        fmtHM (computeEnd hm.1 hm.2 q.2.duration).1 (computeEnd hm.1 hm.2 q.2.duration).2) &&
    !(runImmediately nowH nowM hm.1 hm.2) &&
    (match lookupA ins q.1 with
     | some r => r.schedule == some q.2
     | none => true)
  | none => false

/-- A consistent demo schedule 09:00-10:00 (60 minutes). -/
def schCex : ScheduleRec := ⟨"09:00".toList, "10:00".toList, 60⟩

/-- A consistent snapshot state: one stopped instance with the 09:00
schedule, denormalized copy in sync. -/
def sCex : St :=
  { St.empty with
    instances := [(iidDemo, ⟨iidDemo, iidDemo, sStopped, none, some schCex⟩)],
    schedules := [(iidDemo, schCex)] }

/-! ### Helper lemmas, then one theorem (with witness or counterexample)
per claim -/

theorem hasPref_append (p t : Str) : hasPref p (p ++ t) = true := by
  induction p with
  | nil => rfl
  | cons c cs ih => simpa [hasPref] using ih

theorem jobId_pat (k : JobKind) (iid stamp : Str) :
    jobId ⟨k, iid, stamp⟩ = jobPat k iid ++ stamp := by
  cases k <;> simp [jobId, jobPat]

theorem jobMatches_of_inst (iid : Str) (j : Job) (h : j.inst = iid) :
    jobMatches iid j = true := by
  cases j with
  | mk k i stp =>
    cases h
    cases k <;> simp [jobMatches, jobId_pat, hasPref_append]

theorem lookup_filter_ne (k : Str) (l : List (Str × α)) :
    lookupA (l.filter fun p => !(p.1 == k)) k = none := by
  induction l with
  | nil => rfl
  | cons p rest ih =>
    by_cases h : p.1 = k
    · simp [List.filter_cons, h, ih]
    · simp [List.filter_cons, h, lookupA, ih]

theorem countP_filter_zero (l : List α) (p q : α → Bool)
    (h : ∀ a, p a = true → q a = false) : (l.filter q).countP p = 0 := by
  rw [List.countP_eq_zero]
  intro a ha hp
  have hq := (List.mem_filter.mp ha).2
  rw [h a hp] at hq
  exact Bool.false_ne_true hq

@[simp] theorem addEv_jobs (st : St) (e : Ev) : (st.addEv e).jobs = st.jobs := rfl

@[simp] theorem addEv_schedules (st : St) (e : Ev) : (st.addEv e).schedules = st.schedules := rfl

@[simp] theorem addEv_instances (st : St) (e : Ev) : (st.addEv e).instances = st.instances := rfl

@[simp] theorem addEv_activeTasks (st : St) (e : Ev) : (st.addEv e).activeTasks = st.activeTasks := rfl

@[simp] theorem modifyInst_jobs (st : St) (iid : Str) (f : InstanceRec → InstanceRec) :
    (modifyInst st iid f).jobs = st.jobs := rfl

@[simp] theorem modifyInst_schedules (st : St) (iid : Str) (f : InstanceRec → InstanceRec) :
    (modifyInst st iid f).schedules = st.schedules := rfl

@[simp] theorem modifyInst_activeTasks (st : St) (iid : Str) (f : InstanceRec → InstanceRec) :
    (modifyInst st iid f).activeTasks = st.activeTasks := rfl

@[simp] theorem setStatus_jobs (st : St) (iid s : Str) : (st.setStatus iid s).jobs = st.jobs := rfl

@[simp] theorem setStatus_schedules (st : St) (iid s : Str) :
    (st.setStatus iid s).schedules = st.schedules := rfl

@[simp] theorem setStatus_activeTasks (st : St) (iid s : Str) :
    (st.setStatus iid s).activeTasks = st.activeTasks := rfl

@[simp] theorem setUrl_jobs (st : St) (iid : Str) (u : Option Str) :
    (st.setUrl iid u).jobs = st.jobs := rfl

@[simp] theorem setUrl_schedules (st : St) (iid : Str) (u : Option Str) :
    (st.setUrl iid u).schedules = st.schedules := rfl

@[simp] theorem setUrl_activeTasks (st : St) (iid : Str) (u : Option Str) :
    (st.setUrl iid u).activeTasks = st.activeTasks := rfl

@[simp] theorem managerLaunch_jobs (w : World) (m : Manager) (st : St) :
    ((managerLaunch w m st).2).jobs = st.jobs := rfl

@[simp] theorem managerLaunch_schedules (w : World) (m : Manager) (st : St) :
    ((managerLaunch w m st).2).schedules = st.schedules := rfl

@[simp] theorem managerLaunch_instances (w : World) (m : Manager) (st : St) :
    ((managerLaunch w m st).2).instances = st.instances := rfl

@[simp] theorem managerLaunch_activeTasks (w : World) (m : Manager) (st : St) :
    ((managerLaunch w m st).2).activeTasks = st.activeTasks := rfl

@[simp] theorem managerSetup_jobs (w : World) (m : Manager) (st : St) :
    ((managerSetup w m st).2).jobs = st.jobs := rfl

@[simp] theorem managerSetup_instances (w : World) (m : Manager) (st : St) :
    ((managerSetup w m st).2).instances = st.instances := rfl

@[simp] theorem managerStart_jobs (w : World) (m : Manager) (st : St) :
    ((managerStart w m st).2).jobs = st.jobs := by
  unfold managerStart
  cases w.describe m.instanceId with
  | none => rfl
  | some v => by_cases hv : v.state = sRunning <;> simp [hv]

@[simp] theorem managerStart_schedules (w : World) (m : Manager) (st : St) :
    ((managerStart w m st).2).schedules = st.schedules := by
  unfold managerStart
  cases w.describe m.instanceId with
  | none => rfl
  | some v => by_cases hv : v.state = sRunning <;> simp [hv]

@[simp] theorem managerStart_instances (w : World) (m : Manager) (st : St) :
    ((managerStart w m st).2).instances = st.instances := by
  unfold managerStart
  cases w.describe m.instanceId with
  | none => rfl
  | some v => by_cases hv : v.state = sRunning <;> simp [hv]

@[simp] theorem managerStart_activeTasks (w : World) (m : Manager) (st : St) :
    ((managerStart w m st).2).activeTasks = st.activeTasks := by
  unfold managerStart
  cases w.describe m.instanceId with
  | none => rfl
  | some v => by_cases hv : v.state = sRunning <;> simp [hv]

@[simp] theorem managerStop_jobs (w : World) (m : Manager) (st : St) :
    ((managerStop w m st).2).jobs = st.jobs := by
  unfold managerStop
  cases w.describe m.instanceId with
  | none => rfl
  | some v => by_cases hv : v.state = sStopped <;> simp [hv]

@[simp] theorem managerStop_schedules (w : World) (m : Manager) (st : St) :
    ((managerStop w m st).2).schedules = st.schedules := by
  unfold managerStop
  cases w.describe m.instanceId with
  | none => rfl
  | some v => by_cases hv : v.state = sStopped <;> simp [hv]

@[simp] theorem managerStop_instances (w : World) (m : Manager) (st : St) :
    ((managerStop w m st).2).instances = st.instances := by
  unfold managerStop
  cases w.describe m.instanceId with
  | none => rfl
  | some v => by_cases hv : v.state = sStopped <;> simp [hv]

@[simp] theorem managerStop_activeTasks (w : World) (m : Manager) (st : St) :
    ((managerStop w m st).2).activeTasks = st.activeTasks := by
  unfold managerStop
  cases w.describe m.instanceId with
  | none => rfl
  | some v => by_cases hv : v.state = sStopped <;> simp [hv]

theorem sSI_jobs (w : World) (iid : Str) (st : St) :
    (scheduledStartInstance w iid st).jobs = st.jobs := by
  unfold scheduledStartInstance
  split
  · rfl
  · cases w.describe iid with
    | none => simp
    | some v =>
      by_cases hv : v.state = sRunning
      · simp only [if_pos hv]
        cases v.publicIp <;> simp
      · simp only [if_neg hv]
        split
        · simp
        · cases hp : v.publicIp <;> simp [hp]

theorem sSI_schedules (w : World) (iid : Str) (st : St) :
    (scheduledStartInstance w iid st).schedules = st.schedules := by
  unfold scheduledStartInstance
  split
  · rfl
  · cases w.describe iid with
    | none => simp
    | some v =>
      by_cases hv : v.state = sRunning
      · simp only [if_pos hv]
        cases v.publicIp <;> simp
      · simp only [if_neg hv]
        split
        · simp
        · cases hp : v.publicIp <;> simp [hp]

theorem lookupA_append (l l2 : List (Str × α)) (k : Str) (h : lookupA l k = none) :
    lookupA (l ++ l2) k = lookupA l2 k := by
  induction l with
  | nil => rfl
  | cons p rest ih =>
    by_cases ha : p.1 = k
    · simp [lookupA, ha] at h
    · simp only [List.cons_append, lookupA, if_neg ha] at h ⊢
      exact ih h

theorem lookup_updA (l : List (Str × α)) (k : Str) (v : α)
    (h : (lookupA l k).isSome) : lookupA (updA l k v) k = some v := by
  induction l with
  | nil => simp [lookupA] at h
  | cons p rest ih =>
    by_cases ha : p.1 = k
    · simp [updA, lookupA, ha]
    · simp only [updA, List.map_cons, if_neg ha, lookupA]
      exact ih (by simpa [lookupA, if_neg ha] using h)

theorem lookup_upsertA (l : List (Str × α)) (k : Str) (v : α) :
    lookupA (upsertA l k v) k = some v := by
  unfold upsertA
  by_cases h : (lookupA l k).isSome
  · rw [if_pos h]
    exact lookup_updA l k v h
  · rw [if_neg h, lookupA_append l [(k, v)] k (Option.not_isSome_iff_eq_none.mp h)]
    simp [lookupA]

theorem updA_eq_self (l : List (Str × α)) (k : Str) (v : α)
    (h : ∀ p ∈ l, p.1 = k → p.2 = v) : updA l k v = l := by
  induction l with
  | nil => rfl
  | cons p rest ih =>
    have hrest : updA rest k v = rest := ih fun q hq => h q (List.mem_cons_of_mem _ hq)
    by_cases ha : p.1 = k
    · have hp : (k, v) = p := by
        have := h p (List.mem_cons_self _ _) ha
        rw [← ha, ← this]
      show (if p.1 = k then (k, v) else p) :: updA rest k v = p :: rest
      rw [if_pos ha, hp, hrest]
    · show (if p.1 = k then (k, v) else p) :: updA rest k v = p :: rest
      rw [if_neg ha, hrest]

theorem mapUpd_eq_self (l : List (Str × α)) (k : Str) (f : α → α)
    (h : ∀ p ∈ l, p.1 = k → f p.2 = p.2) :
    l.map (fun p => if p.1 = k then (p.1, f p.2) else p) = l := by
  induction l with
  | nil => rfl
  | cons p rest ih =>
    have hrest := ih fun q hq => h q (List.mem_cons_of_mem _ hq)
    by_cases ha : p.1 = k
    · have hfp := h p (List.mem_cons_self _ _) ha
      simp only [List.map_cons, if_pos ha, hfp, hrest]
    · simp only [List.map_cons, if_neg ha, hrest]

theorem modifyInst_eq_self (st : St) (iid : Str) (f : InstanceRec → InstanceRec)
    (h : ∀ p ∈ st.instances, p.1 = iid → f p.2 = p.2) : modifyInst st iid f = st := by
  unfold modifyInst
  rw [mapUpd_eq_self st.instances iid f h]

/-- The end-of-window arithmetic of `add_daily_schedule` agrees with
minute arithmetic modulo one day. -/
theorem computeEnd_mod (sh sm d : Nat) (hh : sh < 24) (hm : sm < 60) :
    (computeEnd sh sm d).1 * 60 + (computeEnd sh sm d).2 = (sh * 60 + sm + d) % 1440 := by
  unfold computeEnd
  by_cases hc : sm + d % 60 ≥ 60
  · simp only [if_pos hc]
    omega
  · simp only [if_neg hc]
    omega

/-- Claim C1: for valid schedule input (a parsable `HH:MM` start time with
in-range fields and a positive duration), `add_daily_schedule` succeeds,
stores the end time computed by `computeEnd`, and that end time equals
`(start + duration) mod 1440` minutes — minute rollover, hour rollover and
midnight wraparound included. -/
theorem claim_C1_end_time (w : World) (nowH nowM : Nat) (stamp1 stamp2 iid startTime : Str)
    (d sh sm : Nat) (hp : parseHM startTime = some (sh, sm))
    (hh : sh < 24) (hm : sm < 60) (hd : 0 < d) (st : St) :
    ∃ st', addDailySchedule w nowH nowM stamp1 stamp2 iid startTime d true st = some st' ∧
      lookupA st'.schedules iid =
        some ⟨startTime, fmtHM (computeEnd sh sm d).1 (computeEnd sh sm d).2, d⟩ ∧
      (computeEnd sh sm d).1 * 60 + (computeEnd sh sm d).2 = (sh * 60 + sm + d) % 1440 := by
  unfold addDailySchedule
  rw [hp]
  refine ⟨_, rfl, ?_, computeEnd_mod sh sm d hh hm⟩
  by_cases hr : runImmediately nowH nowM sh sm <;>
    by_cases hi : (lookupA st.instances iid).isSome <;>
      simp [hr, hi, sSI_schedules, lookup_upsertA]

/-- Witness for C1 at the spec's own example: start `23:30`, duration 90
minutes, giving end `01:00`. -/
theorem claim_C1_witness :
    (∃ st', addDailySchedule wNull 12 0 tsDemo tsDemo iidDemo t2330 90 true St.empty = some st' ∧
      lookupA st'.schedules iidDemo =
        some ⟨t2330, fmtHM (computeEnd 23 30 90).1 (computeEnd 23 30 90).2, 90⟩ ∧
      (computeEnd 23 30 90).1 * 60 + (computeEnd 23 30 90).2 = (23 * 60 + 30 + 90) % 1440) ∧
    fmtHM (computeEnd 23 30 90).1 (computeEnd 23 30 90).2 = "01:00".toList :=
  ⟨claim_C1_end_time wNull 12 0 tsDemo tsDemo iidDemo t2330 90 23 30 (by decide)
      (by decide) (by decide) (by decide) St.empty,
    by decide⟩

theorem countP_after_replace (l : List Job) (iid stamp1 stamp2 : Str) (k : JobKind) :
    List.countP (fun j => j.inst == iid && j.kind == k)
      ((l.filter fun j => !(jobMatches iid j)) ++ [⟨.startK, iid, stamp1⟩, ⟨.stopK, iid, stamp2⟩]) = 1 := by
  rw [List.countP_append]
  have h0 : (l.filter fun j => !(jobMatches iid j)).countP
      (fun j => j.inst == iid && j.kind == k) = 0 := by
    apply countP_filter_zero
    intro j hj
    have hinst : j.inst = iid := by
      have := ((Bool.and_eq_true _ _).mp hj).1
      exact beq_iff_eq.mp this
    simp [jobMatches_of_inst iid j hinst]
  rw [h0]
  cases k <;> simp [List.countP_cons]

/-- Claim C2: after any schedule-set for an instance id, from any prior
scheduler state, exactly one start-trigger job and exactly one stop-trigger
job for that id exist: the old jobs for the id are removed before the new
pair is installed, so two generations never coexist. -/
theorem claim_C2_single_trigger_pair (w : World) (nowH nowM : Nat)
    (stamp1 stamp2 iid startTime : Str) (d sh sm : Nat)
    (hp : parseHM startTime = some (sh, sm)) (st : St) :
    ∃ st', addDailySchedule w nowH nowM stamp1 stamp2 iid startTime d true st = some st' ∧
      st'.jobs.countP (fun j => j.inst == iid && j.kind == JobKind.startK) = 1 ∧
      st'.jobs.countP (fun j => j.inst == iid && j.kind == JobKind.stopK) = 1 := by
  unfold addDailySchedule
  rw [hp]
  refine ⟨_, rfl, ?_, ?_⟩ <;>
  · by_cases hr : runImmediately nowH nowM sh sm <;>
      by_cases hi : (lookupA st.instances iid).isSome <;>
        simp [hr, hi, sSI_jobs, countP_after_replace] <;>
          (intro a ha hf hinst
           rw [jobMatches_of_inst iid a hinst] at hf
           simp at hf)

/-- Witness for C2: a state already holding two stale generations of jobs
for the id ends up with exactly one pair. -/
theorem claim_C2_witness :
    ∃ st', addDailySchedule wNull 12 0 tsDemo tsDemo iidDemo t2330 60 true
        { St.empty with jobs := [⟨.startK, iidDemo, "1".toList⟩, ⟨.stopK, iidDemo, "1".toList⟩,
            ⟨.startK, iidDemo, "2".toList⟩, ⟨.stopK, iidDemo, "2".toList⟩] } = some st' ∧
      st'.jobs.countP (fun j => j.inst == iidDemo && j.kind == JobKind.startK) = 1 ∧
      st'.jobs.countP (fun j => j.inst == iidDemo && j.kind == JobKind.stopK) = 1 :=
  claim_C2_single_trigger_pair wNull 12 0 tsDemo tsDemo iidDemo t2330 60 23 30 (by decide) _

@[simp] theorem removeSchedule_jobs (iid : Str) (st : St) :
    (removeSchedule iid st).jobs = st.jobs.filter fun j => !(jobMatches iid j) := rfl

@[simp] theorem removeSchedule_schedules (iid : Str) (st : St) :
    (removeSchedule iid st).schedules = st.schedules.filter fun p => !(p.1 == iid) := rfl

@[simp] theorem removeSchedule_instances (iid : Str) (st : St) :
    (removeSchedule iid st).instances =
      st.instances.map fun p =>
        if p.1 = iid then (p.1, { p.2 with schedule := none }) else p := rfl

theorem filterNe_eq_self (l : List (Str × α)) (k : Str) (h : lookupA l k = none) :
    (l.filter fun p => !(p.1 == k)) = l := by
  induction l with
  | nil => rfl
  | cons p rest ih =>
    by_cases ha : p.1 = k
    · simp [lookupA, ha] at h
    · simp only [lookupA, if_neg ha] at h
      simp [List.filter_cons, ha, ih h]

theorem filter_eq_self_of (l : List α) (p : α → Bool) (h : ∀ a ∈ l, p a = true) :
    l.filter p = l := by
  induction l with
  | nil => rfl
  | cons a rest ih =>
    rw [List.filter_cons, if_pos (h a (List.mem_cons_self _ _)),
      ih fun b hb => h b (List.mem_cons_of_mem _ hb)]

theorem filter_idem (l : List α) (p : α → Bool) : (l.filter p).filter p = l.filter p := by
  induction l with
  | nil => rfl
  | cons a rest ih =>
    by_cases ha : p a = true
    · rw [List.filter_cons, if_pos ha, List.filter_cons, if_pos ha, ih]
    · rw [List.filter_cons, if_neg ha, ih]

theorem mapUpd_idem (l : List (Str × α)) (k : Str) (f : α → α) (hf : ∀ a, f (f a) = f a) :
    ((l.map fun p => if p.1 = k then (p.1, f p.2) else p).map
        fun p => if p.1 = k then (p.1, f p.2) else p) =
      l.map fun p => if p.1 = k then (p.1, f p.2) else p := by
  induction l with
  | nil => rfl
  | cons p rest ih =>
    by_cases ha : p.1 = k
    · simp only [List.map_cons, if_pos ha, ih, hf]
    · simp only [List.map_cons, if_neg ha, ih]

/-- Claim C4: whatever the operation and whatever the outcome (success,
reported failure, or a raised exception caught by the handler), after
`background_task` finishes the active-task entry for its task id is gone. -/
theorem claim_C4_task_cleanup (w : World) (taskId : Str) (op : Op) (st : St) :
    lookupA (backgroundTask w taskId op st).activeTasks taskId = none := by
  unfold backgroundTask
  exact lookup_filter_ne taskId _

/-- Claim C7: removing a tracked instance removes its schedules entry,
every start/stop trigger job for its id, and the registry record itself. -/
theorem claim_C7_remove_instance (iid : Str) (st : St)
    (h : (lookupA st.instances iid).isSome) :
    lookupA (removeInstance iid st).schedules iid = none ∧
    (∀ j ∈ (removeInstance iid st).jobs, ¬ j.inst = iid) ∧
    lookupA (removeInstance iid st).instances iid = none := by
  unfold removeInstance
  rw [if_pos h]
  refine ⟨?_, ?_, ?_⟩
  · exact lookup_filter_ne iid _
  · intro j hj hinst
    have hf : (!(jobMatches iid j)) = true := (List.mem_filter.mp hj).2
    rw [jobMatches_of_inst iid j hinst] at hf
    simp at hf
  · exact lookup_filter_ne iid _

/-- Witness for C7 at a one-instance, one-schedule, two-job state. -/
theorem claim_C7_witness :
    lookupA (removeInstance iidDemo
        { instances := [(iidDemo, ⟨iidDemo, iidDemo, sStopped, none,
            some ⟨t2330, t2330, 60⟩⟩)],
          schedules := [(iidDemo, ⟨t2330, t2330, 60⟩)],
          jobs := [⟨.startK, iidDemo, tsDemo⟩, ⟨.stopK, iidDemo, tsDemo⟩],
          activeTasks := [], trace := [] }).schedules iidDemo = none ∧
    (∀ j ∈ (removeInstance iidDemo
        { instances := [(iidDemo, ⟨iidDemo, iidDemo, sStopped, none,
            some ⟨t2330, t2330, 60⟩⟩)],
          schedules := [(iidDemo, ⟨t2330, t2330, 60⟩)],
          jobs := [⟨.startK, iidDemo, tsDemo⟩, ⟨.stopK, iidDemo, tsDemo⟩],
          activeTasks := [], trace := [] }).jobs, ¬ j.inst = iidDemo) ∧
    lookupA (removeInstance iidDemo
        { instances := [(iidDemo, ⟨iidDemo, iidDemo, sStopped, none,
            some ⟨t2330, t2330, 60⟩⟩)],
          schedules := [(iidDemo, ⟨t2330, t2330, 60⟩)],
          jobs := [⟨.startK, iidDemo, tsDemo⟩, ⟨.stopK, iidDemo, tsDemo⟩],
          activeTasks := [], trace := [] }).instances iidDemo = none :=
  claim_C7_remove_instance iidDemo _ (by decide)

/-- Counterexample to C10 as stated: instance id `a` has no schedules
entry and no trigger job of its own, yet `remove_schedule("a")` changes
the scheduler's job set — the prefix test `job.id.startswith("start_a_")`
(`app.py:342`) also matches the job of instance `a_b`, and deletes it. -/
theorem claim_C10_counterexample :
    lookupA ({ St.empty with jobs := [jobAB] } : St).schedules idA = none ∧
    (∀ j ∈ ({ St.empty with jobs := [jobAB] } : St).jobs, ¬ j.inst = idA) ∧
    (removeSchedule idA { St.empty with jobs := [jobAB] }).jobs ≠
      ({ St.empty with jobs := [jobAB] } : St).jobs := by
  decide

/-- Claim C10 (amended): `remove_schedule` never raises; when the id has
no schedules entry and no job's id matches either of its prefixes (in
particular, whenever no other instance's id extends the given id after an
underscore), it leaves the schedules map, the job set and every instance
record's non-`schedule` fields unchanged; and calling it twice always
leaves the same schedules, jobs and instances as calling it once. -/
theorem claim_C10_remove_schedule_amended (iid : Str) (st : St)
    (hs : lookupA st.schedules iid = none)
    (hj : ∀ j ∈ st.jobs, jobMatches iid j = false) :
    (removeSchedule iid st).schedules = st.schedules ∧
    (removeSchedule iid st).jobs = st.jobs ∧
    ((removeSchedule iid st).instances.map fun p => (p.1, { p.2 with schedule := none })) =
      (st.instances.map fun p => (p.1, { p.2 with schedule := none })) ∧
    ∀ st2 : St,
      (removeSchedule iid (removeSchedule iid st2)).schedules =
        (removeSchedule iid st2).schedules ∧
      (removeSchedule iid (removeSchedule iid st2)).jobs = (removeSchedule iid st2).jobs ∧
      (removeSchedule iid (removeSchedule iid st2)).instances =
        (removeSchedule iid st2).instances := by
  refine ⟨?_, ?_, ?_, ?_⟩
  · rw [removeSchedule_schedules]
    exact filterNe_eq_self st.schedules iid hs
  · rw [removeSchedule_jobs]
    exact filter_eq_self_of st.jobs _ fun j hjm => by rw [hj j hjm]; rfl
  · rw [removeSchedule_instances, List.map_map]
    apply List.map_congr_left
    intro p _
    by_cases ha : p.1 = iid <;> simp [ha]
  · intro st2
    refine ⟨?_, ?_, ?_⟩
    · rw [removeSchedule_schedules, removeSchedule_schedules]
      exact filter_idem _ _
    · rw [removeSchedule_jobs, removeSchedule_jobs]
      exact filter_idem _ _
    · rw [removeSchedule_instances, removeSchedule_instances]
      exact mapUpd_idem st2.instances iid (fun r => { r with schedule := none }) fun a => rfl

/-- Witness for the amended C10 at a concrete state with an unrelated
schedule and job left intact. -/
theorem claim_C10_witness :
    (removeSchedule idA
        { instances := [(iidDemo, ⟨iidDemo, iidDemo, sStopped, none, none⟩)],
          schedules := [(iidDemo, ⟨t2330, t2330, 60⟩)],
          jobs := [⟨.startK, iidDemo, tsDemo⟩],
          activeTasks := [], trace := [] }).schedules =
      ({ instances := [(iidDemo, ⟨iidDemo, iidDemo, sStopped, none, none⟩)],
          schedules := [(iidDemo, ⟨t2330, t2330, 60⟩)],
          jobs := [⟨.startK, iidDemo, tsDemo⟩],
          activeTasks := [], trace := [] } : St).schedules ∧
    (removeSchedule idA
        { instances := [(iidDemo, ⟨iidDemo, iidDemo, sStopped, none, none⟩)],
          schedules := [(iidDemo, ⟨t2330, t2330, 60⟩)],
          jobs := [⟨.startK, iidDemo, tsDemo⟩],
          activeTasks := [], trace := [] }).jobs =
      ({ instances := [(iidDemo, ⟨iidDemo, iidDemo, sStopped, none, none⟩)],
          schedules := [(iidDemo, ⟨t2330, t2330, 60⟩)],
          jobs := [⟨.startK, iidDemo, tsDemo⟩],
          activeTasks := [], trace := [] } : St).jobs ∧
    ((removeSchedule idA
        { instances := [(iidDemo, ⟨iidDemo, iidDemo, sStopped, none, none⟩)],
          schedules := [(iidDemo, ⟨t2330, t2330, 60⟩)],
          jobs := [⟨.startK, iidDemo, tsDemo⟩],
          activeTasks := [], trace := [] }).instances.map
        fun p => (p.1, { p.2 with schedule := none })) =
      (({ instances := [(iidDemo, ⟨iidDemo, iidDemo, sStopped, none, none⟩)],
          schedules := [(iidDemo, ⟨t2330, t2330, 60⟩)],
          jobs := [⟨.startK, iidDemo, tsDemo⟩],
          activeTasks := [], trace := [] } : St).instances.map
        fun p => (p.1, { p.2 with schedule := none })) ∧
    ∀ st2 : St,
      (removeSchedule idA (removeSchedule idA st2)).schedules =
        (removeSchedule idA st2).schedules ∧
      (removeSchedule idA (removeSchedule idA st2)).jobs = (removeSchedule idA st2).jobs ∧
      (removeSchedule idA (removeSchedule idA st2)).instances =
        (removeSchedule idA st2).instances :=
  claim_C10_remove_schedule_amended idA _ (by decide) (by decide)

theorem lookupA_mapUpd (l : List (Str × α)) (k : Str) (f : α → α) :
    lookupA (l.map fun p => if p.1 = k then (p.1, f p.2) else p) k =
      (lookupA l k).map f := by
  induction l with
  | nil => rfl
  | cons p rest ih =>
    by_cases ha : p.1 = k
    · simp [lookupA, ha]
    · simp only [List.map_cons, if_neg ha, lookupA, ih]

theorem lookup_setStatus (st : St) (iid s : Str) :
    lookupA (st.setStatus iid s).instances iid =
      (lookupA st.instances iid).map fun r => { r with status := s } := by
  unfold St.setStatus St.addEv modifyInst
  exact lookupA_mapUpd st.instances iid fun r => { r with status := s }

theorem lookup_setUrl (st : St) (iid : Str) (u : Option Str) :
    lookupA (st.setUrl iid u).instances iid =
      (lookupA st.instances iid).map fun r => { r with url := u } := by
  unfold St.setUrl St.addEv modifyInst
  exact lookupA_mapUpd st.instances iid fun r => { r with url := u }

/-- Claim C5: when the provider reports the instance `running`, the
scheduled start path issues no `start_instances` request, records status
`running`, sets the url from the reported address when one is present, and
`EC2Manager.start` short-circuits with success. -/
theorem claim_C5_start_short_circuit (w : World) (iid : Str) (st : St) (v : ProviderView)
    (hd : w.describe iid = some v) (hrun : v.state = sRunning)
    (ht : (lookupA st.instances iid).isSome) :
    (∃ r, lookupA (scheduledStartInstance w iid st).instances iid = some r ∧
      r.status = sRunning ∧ ∀ ip, v.publicIp = some ip → r.url = some (urlOf ip)) ∧
    (scheduledStartInstance w iid st).trace.countP isStartCall =
      st.trace.countP isStartCall ∧
    (managerStart w ⟨iid, v.publicIp, v.publicIp.map urlOf⟩ st).1 = ⟨true⟩ := by
  cases hl : lookupA st.instances iid with
  | none => rw [hl] at ht; simp at ht
  | some r0 =>
    refine ⟨?_, ?_, ?_⟩
    · cases hip : v.publicIp with
      | none =>
        refine ⟨{ r0 with status := sRunning }, ?_, rfl, ?_⟩
        · simp only [scheduledStartInstance, hl, hd, hrun, hip, Option.isNone_some,
            Bool.false_eq_true, if_false, reduceIte]
          rw [lookup_setStatus]
          simp [hl]
        · intro ip hip2
          cases hip2
      | some ip0 =>
        refine ⟨{ r0 with status := sRunning, url := some (urlOf ip0) }, ?_, rfl, ?_⟩
        · simp only [scheduledStartInstance, hl, hd, hrun, hip, Option.isNone_some,
            Bool.false_eq_true, if_false, reduceIte]
          rw [lookup_setUrl, lookup_setStatus]
          simp [hl]
        · intro ip hip2
          injection hip2 with hip3
          show some (urlOf ip0) = some (urlOf ip)
          rw [hip3]
    · simp only [scheduledStartInstance, hl, hd, hrun, Option.isNone_some,
        Bool.false_eq_true, if_false, reduceIte]
      cases hip : v.publicIp <;>
        simp [St.setStatus, St.setUrl, St.addEv, modifyInst, List.countP_append,
          List.countP_cons, isStartCall]
    · simp [managerStart, hd, hrun]

/-- Witness for C5 on the demo instance. -/
theorem claim_C5_witness :
    (∃ r, lookupA (scheduledStartInstance wRun iidDemo stDemo).instances iidDemo = some r ∧
      r.status = sRunning ∧
      ∀ ip, (ProviderView.mk sRunning (some ipDemo)).publicIp = some ip →
        r.url = some (urlOf ip)) ∧
    (scheduledStartInstance wRun iidDemo stDemo).trace.countP isStartCall =
      stDemo.trace.countP isStartCall ∧
    (managerStart wRun ⟨iidDemo, some ipDemo, (some ipDemo).map urlOf⟩ stDemo).1 = ⟨true⟩ :=
  claim_C5_start_short_circuit wRun iidDemo stDemo ⟨sRunning, some ipDemo⟩
    (by decide) (by decide) (by decide)

/-- Claim C6: when the provider reports the instance `stopped`, the
scheduled stop path issues no `stop_instances` request, records status
`stopped` with the url cleared, and `EC2Manager.stop` short-circuits with
success. -/
theorem claim_C6_stop_short_circuit (w : World) (iid : Str) (st : St) (v : ProviderView)
    (hd : w.describe iid = some v) (hstop : v.state = sStopped)
    (ht : (lookupA st.instances iid).isSome) :
    (∃ r, lookupA (scheduledStopInstance w iid st).instances iid = some r ∧
      r.status = sStopped ∧ r.url = none) ∧
    (scheduledStopInstance w iid st).trace.countP isStopCall =
      st.trace.countP isStopCall ∧
    (managerStop w ⟨iid, v.publicIp, v.publicIp.map urlOf⟩ st).1 = ⟨true⟩ := by
  cases hl : lookupA st.instances iid with
  | none => rw [hl] at ht; simp at ht
  | some r0 =>
    refine ⟨?_, ?_, ?_⟩
    · refine ⟨{ r0 with status := sStopped, url := none }, ?_, rfl, rfl⟩
      simp only [scheduledStopInstance, hd, hstop, addEv_instances, hl, ne_eq,
        not_true_eq_false, Bool.false_eq_true, if_false, reduceIte, Option.isSome_some]
      rw [lookup_setUrl, lookup_setStatus]
      simp [hl]
    · simp only [scheduledStopInstance, hd, hstop, addEv_instances, hl, ne_eq,
        not_true_eq_false, Bool.false_eq_true, if_false, reduceIte, Option.isSome_some]
      simp [St.setStatus, St.setUrl, St.addEv, modifyInst, List.countP_append,
        List.countP_cons, isStopCall]
    · simp [managerStop, hd, hstop]

/-- Witness for C6 on the demo instance. -/
theorem claim_C6_witness :
    (∃ r, lookupA (scheduledStopInstance wStop iidDemo stDemoR).instances iidDemo = some r ∧
      r.status = sStopped ∧ r.url = none) ∧
    (scheduledStopInstance wStop iidDemo stDemoR).trace.countP isStopCall =
      stDemoR.trace.countP isStopCall ∧
    (managerStop wStop ⟨iidDemo, none, Option.map urlOf none⟩ stDemoR).1 = ⟨true⟩ :=
  claim_C6_stop_short_circuit wStop iidDemo stDemoR ⟨sStopped, none⟩
    (by decide) (by decide) (by decide)

/-- Counterexample to C9 as stated: on a successful non-short-circuit
start, the code's own event order violates the claimed order — status
`starting` is stored only after `manager.start()` has already issued the
request and finished the bounded wait (`app.py:396`-`397`), and the
application is launched before status `running` is stored
(`app.py:401`-`402`). -/
theorem claim_C9_counterexample :
    c9SpecOrder iidDemo (backgroundTask wBoot tsDemo (.startOp iidDemo) stDemo).trace = false := by
  decide

/-- Claim C9 (amended): on a successful start of a tracked, not-running
instance with a public address, the observed event order is exactly:
describe (manager init), describe, `start_instances`, bounded wait, status
`starting`, describe + application launch, status `running`, describe,
url refresh. -/
theorem claim_C9_start_order_amended (w : World) (tid iid : Str) (st : St)
    (v : ProviderView) (ip : Str)
    (hd : w.describe iid = some v) (hne : ¬ v.state = sRunning)
    (hok : w.startOk iid = true) (hip : v.publicIp = some ip)
    (ht : (lookupA st.instances iid).isSome) :
    (backgroundTask w tid (.startOp iid) st).trace =
      st.trace ++ [.describeC iid, .describeC iid, .startInstancesC iid, .waitRunningC iid,
        .statusEv iid sStarting, .describeC iid, .sshLaunchC iid,
        .statusEv iid sRunning, .describeC iid, .urlEv iid (some (urlOf ip))] := by
  cases hl : lookupA st.instances iid with
  | none => rw [hl] at ht; simp at ht
  | some r0 =>
    simp only [backgroundTask, bgBody, hd, addEv_instances, hl, Option.isNone_some,
      Bool.false_eq_true, if_false, reduceIte]
    simp [managerStart, managerLaunch, hd, hne, hok, hip, St.setStatus, St.setUrl,
      St.addEv, modifyInst, List.append_assoc]

/-- Witness for the amended C9 on the demo instance. -/
theorem claim_C9_witness :
    (backgroundTask wBoot tsDemo (.startOp iidDemo) stDemo).trace =
      stDemo.trace ++ [.describeC iidDemo, .describeC iidDemo, .startInstancesC iidDemo,
        .waitRunningC iidDemo, .statusEv iidDemo sStarting, .describeC iidDemo,
        .sshLaunchC iidDemo, .statusEv iidDemo sRunning, .describeC iidDemo,
        .urlEv iidDemo (some (urlOf ipDemo))] :=
  claim_C9_start_order_amended wBoot tsDemo iidDemo stDemo ⟨sStopped, some ipDemo⟩ ipDemo
    (by decide) (by decide) (by decide) (by decide) (by decide)

/-- Claim C3 refutation: `background_task` runs on a plain daemon thread
per request (`app.py:510`-`515`, `530`-`535`) with no per-id lock, so the
writes of a concurrent start and stop on the same id may interleave.  The
first two conjuncts check that `startWrites` / `stopWrites` are exactly
the registry writes the code performs; the third exhibits an interleaving
whose final (status, url) differs from both serialized outcomes, a state
no mutually-exclusive execution can produce. -/
theorem claim_C3_no_serialization :
    writesOf iidDemo (backgroundTask wBoot tsDemo (.startOp iidDemo) stDemo).trace =
      startWrites ipDemo ∧
    writesOf iidDemo (backgroundTask wBoot tsDemo (.stopOp iidDemo) stDemo).trace =
      stopWrites ∧
    ∃ tr, Ilv (startWrites ipDemo) stopWrites tr ∧
      runWr (sStopped, none) tr ≠ runWr (sStopped, none) (startWrites ipDemo ++ stopWrites) ∧
      runWr (sStopped, none) tr ≠ runWr (sStopped, none) (stopWrites ++ startWrites ipDemo) := by
  refine ⟨by decide, by decide,
    ⟨[.wStatus sStarting, .wStatus sRunning, .wStatus sStopped, .wUrl none,
        .wUrl (some (urlOf ipDemo))], ?_, by decide, by decide⟩⟩
  exact Ilv.left (Ilv.left (Ilv.right (Ilv.right (Ilv.left Ilv.nil))))

theorem addDaily_id_on_maps (w : World) (nowH nowM : Nat) (sa sb : Str)
    (st : St) (iid : Str) (sch : ScheduleRec) (sh sm : Nat)
    (hp : parseHM sch.start = some (sh, sm))
    (hend : sch.endT = fmtHM (computeEnd sh sm sch.duration).1 (computeEnd sh sm sch.duration).2)
    (hrn : runImmediately nowH nowM sh sm = false)
    (hlk : lookupA st.schedules iid = some sch)
    (hallS : ∀ q ∈ st.schedules, q.1 = iid → q.2 = sch)
    (hallI : ∀ q ∈ st.instances, q.1 = iid → q.2.schedule = some sch) :
    ∃ st', addDailySchedule w nowH nowM sa sb iid sch.start sch.duration false st = some st' ∧
      st'.instances = st.instances ∧ st'.schedules = st.schedules := by
  have hnew : (⟨sch.start, fmtHM (computeEnd sh sm sch.duration).1
      (computeEnd sh sm sch.duration).2, sch.duration⟩ : ScheduleRec) = sch := by
    rw [← hend]
  have hups : upsertA st.schedules iid sch = st.schedules := by
    unfold upsertA
    rw [if_pos (by rw [hlk]; rfl)]
    exact updA_eq_self st.schedules iid sch hallS
  unfold addDailySchedule
  rw [hp]
  refine ⟨_, rfl, ?_, ?_⟩
  · by_cases hins : (lookupA st.instances iid).isSome <;>
      simp only [hrn, Bool.false_eq_true, if_false, hins, if_true, reduceIte]
    rw [hnew]
    exact mapUpd_eq_self st.instances iid (fun r => { r with schedule := some sch })
      fun p hpmem hpk => by rw [← hallI p hpmem hpk]
  · by_cases hins : (lookupA st.instances iid).isSome <;>
      simp only [hrn, Bool.false_eq_true, if_false, hins, if_true, reduceIte] <;>
      · rw [hnew]
        exact hups

theorem restore_id_on_maps (w : World) (nowH nowM : Nat) (sa sb : Str) (S : St)
    (hsk : ∀ q ∈ S.schedules, lookupA S.schedules q.1 = some q.2)
    (hik : ∀ q ∈ S.instances, lookupA S.instances q.1 = some q.2)
    (hok : ∀ q ∈ S.schedules, entryOK S.instances nowH nowM q = true) :
    ∀ (L : List (Str × ScheduleRec)) (st : St), (∀ q ∈ L, q ∈ S.schedules) →
      st.instances = S.instances → st.schedules = S.schedules →
      (restoreLoop w nowH nowM sa sb L st).instances = S.instances ∧
      (restoreLoop w nowH nowM sa sb L st).schedules = S.schedules := by
  intro L
  induction L with
  | nil => exact fun st _ hi hs => ⟨hi, hs⟩
  | cons q rest ih =>
    intro st hmem hi hs
    have hqS : q ∈ S.schedules := hmem q (List.mem_cons_self _ _)
    have hq := hok q hqS
    unfold restoreLoop
    by_cases hins : (lookupA st.instances q.1).isSome
    · rw [if_pos hins]
      cases hparse : parseHM q.2.start with
      | none =>
        simp only [entryOK, hparse] at hq
        exact absurd hq Bool.false_ne_true
      | some hm =>
        obtain ⟨sh, sm⟩ := hm
        simp only [entryOK, hparse, Bool.and_eq_true, beq_iff_eq, Bool.not_eq_true'] at hq
        obtain ⟨⟨hend, hrn⟩, hsync⟩ := hq
        have hlk : lookupA st.schedules q.1 = some q.2 := by
          rw [hs]; exact hsk q hqS
        have hallS : ∀ p ∈ st.schedules, p.1 = q.1 → p.2 = q.2 := by
          intro p hpmem hpk
          have h1 := hsk p (hs ▸ hpmem)
          rw [hpk] at h1
          have h2 := hsk q hqS
          rw [h1] at h2
          exact Option.some.inj h2
        have hallI : ∀ p ∈ st.instances, p.1 = q.1 → p.2.schedule = some q.2 := by
          intro p hpmem hpk
          have h1 := hik p (hi ▸ hpmem)
          rw [hpk] at h1
          simp only [h1] at hsync
          exact beq_iff_eq.mp hsync
        obtain ⟨st', heq, hii, hss⟩ :=
          addDaily_id_on_maps w nowH nowM sa sb st q.1 q.2 sh sm hparse hend hrn hlk hallS hallI
        rw [heq]
        exact ih st' (fun r hr => hmem r (List.mem_cons_of_mem _ hr))
          (hii.trans hi) (hss.trans hs)
    · rw [if_neg hins]
      exact ih st (fun r hr => hmem r (List.mem_cons_of_mem _ hr)) hi hs

/-- Counterexample to C8 as stated: loading the saved snapshot at 09:00 —
inside the five-minute immediate-run window of the restored schedule —
triggers `scheduled_start_instance` during the restore
(`app.py:324`-`326`), which changes the instance's status and url, so the
loaded registry is not identical to the saved one. -/
theorem claim_C8_counterexample :
    (loadConfiguration wRun 9 0 tsDemo tsDemo (saveConfiguration sCex)).instances ≠
      sCex.instances := by
  decide

/-- Claim C8 (amended): for a snapshot whose maps are genuine dicts (each
entry is what its key looks up), whose schedule entries are internally
consistent (parsable start, end equal to the recomputed end, denormalized
instance copy in sync — all invariants of states this system itself
produces), and whose restore time falls outside every schedule's
five-minute immediate-run window, save followed by load in a fresh
process reproduces the instance and schedule records exactly. -/
theorem claim_C8_roundtrip_amended (w : World) (nowH nowM : Nat) (sa sb : Str) (S : St)
    (hsk : ∀ q ∈ S.schedules, lookupA S.schedules q.1 = some q.2)
    (hik : ∀ q ∈ S.instances, lookupA S.instances q.1 = some q.2)
    (hok : ∀ q ∈ S.schedules, entryOK S.instances nowH nowM q = true) :
    (loadConfiguration w nowH nowM sa sb (saveConfiguration S)).instances = S.instances ∧
    (loadConfiguration w nowH nowM sa sb (saveConfiguration S)).schedules = S.schedules := by
  unfold loadConfiguration saveConfiguration
  exact restore_id_on_maps w nowH nowM sa sb S hsk hik hok S.schedules _ (fun q hq => hq) rfl rfl

/-- Witness for the amended C8: the same snapshot as the counterexample
round-trips exactly when loaded at noon, outside the immediate-run
window. -/
theorem claim_C8_witness :
    (loadConfiguration wRun 12 0 tsDemo tsDemo (saveConfiguration sCex)).instances =
      sCex.instances ∧
    (loadConfiguration wRun 12 0 tsDemo tsDemo (saveConfiguration sCex)).schedules =
      sCex.schedules :=
  claim_C8_roundtrip_amended wRun 12 0 tsDemo tsDemo sCex (by decide) (by decide) (by decide)
